import Mathlib

/-!
Shallow embedding of the `aws_py_data_eng` repository: the CSV-to-Parquet
converter (`aws_py_data_eng/csv_to_parquet.py`), its two invocation adapters
(`src/aws_py_data_eng/lambda_wrapper.py`, `deployment/glue_wrapper.py`) and the
configuration parser of the batch brightness job
(`src/aws_py_data_eng/batch_satellite_brightness.py`).

Modelling conventions:
* Python strings are `String` / `List Char`; the Python `\w`, `\s`, `.lower()`
  and `.strip()` primitives are modelled over ASCII (the range the repository's
  data uses), exactly following CPython's ASCII behaviour.
* S3 is an association list from full `s3://bucket/key` paths to objects; a
  write prepends (last writer wins on lookup).
* pandas behaviour reached by the source is modelled at cell level:
  `read_csv` field splitting with the default NA markers, `to_numeric`
  with `errors='coerce'` as decimal-literal parsing, `astype('Int64')` as the
  safe cast that fails on non-integral numbers, `astype('category')` as
  recording the distinct non-missing values, `astype('string')` as identity
  on string cells.
* Exceptions are `Except String`; the converter returns the (possibly
  unchanged) store together with the outcome, reflecting that the source
  writes only after a successful read and coercion.
-/

/-- Python `\s` (ASCII range): space, tab, newline, carriage return,
vertical tab, form feed. -/
def pyIsSpace (c : Char) : Bool :=
  c = ' ' || c = '\t' || c = '\n' || c = '\r' || c = '\x0b' || c = '\x0c'

/-- ASCII digit, as matched by Python `\d` / `str.isdigit` on ASCII. -/
def pyIsDigit (c : Char) : Bool :=
  48 ≤ c.toNat && c.toNat ≤ 57

/-- ASCII letter. -/
def pyIsAlpha (c : Char) : Bool :=
  (65 ≤ c.toNat && c.toNat ≤ 90) || (97 ≤ c.toNat && c.toNat ≤ 122)

/-- Python `\w` (ASCII range): letter, digit or underscore. -/
def pyIsWordChar (c : Char) : Bool :=
  pyIsAlpha c || pyIsDigit c || c = '_'

/-- Python `str.lower` on an ASCII character: map A-Z to a-z, fix the rest.
This coincides with Lean's `Char.toLower`; we keep the core function. -/
def pyToLower (c : Char) : Char :=
  Char.toLower c

/-- Python `str.strip()` on a character list: drop leading and trailing
whitespace. -/
def pyStrip (l : List Char) : List Char :=
  ((l.dropWhile pyIsSpace).reverse.dropWhile pyIsSpace).reverse

/-- Helper for `re.sub(r'\s+', '_', s)`: the flag records whether the scan
is inside a whitespace run whose underscore has already been emitted. -/
def collapseWsAux : Bool → List Char → List Char
  | _, [] => []
  | inRun, c :: rest =>
    if pyIsSpace c then
      if inRun then collapseWsAux true rest
      else '_' :: collapseWsAux true rest
    else
      c :: collapseWsAux false rest

/-- `re.sub(r'\s+', '_', s)`: replace every maximal run of whitespace by a
single underscore. -/
def collapseWs (l : List Char) : List Char :=
  collapseWsAux false l

/-- `clean_column_name` from `csv_to_parquet.py`:
`cleaned = re.sub(r'[^\w\s]', '', column_name)` then
`re.sub(r'\s+', '_', cleaned.strip()).lower()`. -/
def cleanList (l : List Char) : List Char :=
  (collapseWs (pyStrip (l.filter fun c => pyIsWordChar c || pyIsSpace c))).map pyToLower

/-- `clean_column_name`: convert a column name to snake_case without special
characters. -/
def clean_column_name (column_name : String) : String :=
  String.mk (cleanList column_name.toList)

/-- Python `str.replace(pat, rep)` for a non-empty pattern, with explicit
fuel for structural recursion: scan left to right, replacing every
(non-overlapping) occurrence. Each step consumes at least one character, so
fuel equal to the length of the scanned list is always enough. -/
def pyReplaceFuel (pat rep : List Char) : Nat → List Char → List Char
  | _, [] => []
  | 0, l => l
  | fuel + 1, c :: cs =>
    if pat ≠ [] ∧ pat.isPrefixOf (c :: cs) then
      rep ++ pyReplaceFuel pat rep fuel ((c :: cs).drop pat.length)
    else
      c :: pyReplaceFuel pat rep fuel cs

/-- Python `str.replace(pat, rep)` on character lists. An empty pattern is
never used by the source. -/
def pyReplace (pat rep l : List Char) : List Char :=
  pyReplaceFuel pat rep l.length l

/-- `str.replace` on `String`s. -/
def pyReplaceStr (s pat rep : String) : String :=
  String.mk (pyReplace pat.toList rep.toList s.toList)

/-! ## Table data model (pandas DataFrame as reached by the source) -/

/-- A table cell. `read_csv` produces only `na` (a default NA marker or a
padded short row) and `str` cells; coercion can produce `int` (nullable Int64)
and `dec` (float64, modelled as an exact decimal) cells. -/
inductive Cell where
  | na : Cell
  | str (s : String) : Cell
  | int (n : Int) : Cell
  | dec (neg : Bool) (ip : List Char) (fp : List Char) : Cell
deriving DecidableEq, Repr

/-- A parsed decimal literal: sign, integer-part digits, fraction digits. -/
structure DecNum where
  neg : Bool
  ip : List Char
  fp : List Char
deriving DecidableEq, Repr

/-- Numeric-literal parsing as performed by `pd.to_numeric`: optional
surrounding whitespace, optional sign, digits with an optional fractional
part (scientific notation is not modelled; the dataset does not use it).
Returns `none` when the string is not such a literal. -/
def parseDecNum (s : String) : Option DecNum :=
  let l := pyStrip s.toList
  let (neg, l1) : Bool × List Char :=
    match l with
    | '-' :: r => (true, r)
    | '+' :: r => (false, r)
    | r => (false, r)
  let ip := l1.takeWhile pyIsDigit
  let rest := l1.dropWhile pyIsDigit
  match rest with
  | [] => if ip.isEmpty then none else some ⟨neg, ip, []⟩
  | '.' :: r2 =>
    let fp := r2.takeWhile pyIsDigit
    let rest2 := r2.dropWhile pyIsDigit
    if rest2.isEmpty && !(ip.isEmpty && fp.isEmpty) then some ⟨neg, ip, fp⟩
    else none
  | _ => none

/-- Digit characters to a natural number. -/
def digitsToNat (l : List Char) : Nat :=
  l.foldl (fun a c => 10 * a + (c.toNat - 48)) 0

/-- A decimal literal denotes an integer exactly when its fraction digits are
all zero. -/
def DecNum.isIntegral (d : DecNum) : Bool :=
  d.fp.all (· = '0')

/-- The integer value of an integral decimal literal. -/
def DecNum.toInt (d : DecNum) : Int :=
  if d.neg then -(digitsToNat d.ip : Int) else (digitsToNat d.ip : Int)

/-- `pd.to_numeric(cell, errors='coerce')` followed by `.astype('Int64')` on
one cell: NA stays NA, an unparseable string becomes NA (`errors='coerce'`),
an integral number becomes an Int64 value, and a non-integral number makes
the safe cast to Int64 raise. -/
def int64Cell : Cell → Except String Cell
  | .na => .ok .na
  | .str s =>
    match parseDecNum s with
    | none => .ok .na
    | some d =>
      if d.isIntegral then .ok (.int d.toInt)
      else .error "cannot safely cast non-equivalent float64 to int64"
  | .int n => .ok (.int n)
  | .dec neg ip fp =>
    if (DecNum.mk neg ip fp).isIntegral then .ok (.int (DecNum.mk neg ip fp).toInt)
    else .error "cannot safely cast non-equivalent float64 to int64"

/-- `pd.to_numeric(cell, errors='coerce')` on one cell (float64 column): NA
stays NA, an unparseable string becomes NA, a number becomes a float64 value. -/
def float64Cell : Cell → Cell
  | .na => .na
  | .str s =>
    match parseDecNum s with
    | none => .na
    | some d => .dec d.neg d.ip d.fp
  | .int n => .dec (decide (n < 0)) (toString n.natAbs).toList []
  | .dec neg ip fp => .dec neg ip fp

/-- `.astype('string')` on one cell: NA stays NA, strings stay themselves,
numbers take their string representation. -/
def stringCell : Cell → Cell
  | .na => .na
  | .str s => .str s
  | .int n => .str (toString n)
  | .dec neg ip fp => .str (String.mk ((if neg then ['-'] else []) ++ ip ++ '.' :: fp))

/-- The distinct non-missing values of a column, as recorded by
`.astype('category')` (pandas additionally sorts them; only the set matters
here, the list order being an artefact of `dedup`). -/
def categoriesOf (cells : List Cell) : List Cell :=
  (cells.filter fun c => c ≠ .na).dedup

/-- A column dtype as it appears in this pipeline. -/
inductive Dtype where
  | object : Dtype
  | stringD : Dtype
  | int64 : Dtype
  | float64 : Dtype
  | category (cats : List Cell) : Dtype
deriving DecidableEq, Repr

/-- One named column: dtype tag and cells in row order. -/
structure Col where
  name : String
  dtype : Dtype
  cells : List Cell
deriving DecidableEq, Repr

/-- A DataFrame: columns in insertion order. -/
structure Df where
  cols : List Col
deriving DecidableEq, Repr

/-- The fixed `type_mapping` of `convert_csv_to_parquet`, with the dtype
strings of the source. -/
def type_mapping : List (String × String) :=
  [("image_index", "string"),
   ("finding_labels", "string"),
   ("follow_up", "int64"),
   ("patient_id", "int64"),
   ("patient_age", "int64"),
   ("patient_gender", "category"),
   ("view_position", "category"),
   ("originalimagewidth", "int64"),
   ("originalimageheight", "int64"),
   ("originalimagepixelspacingx", "float64"),
   ("originalimagepixelspacingy", "float64")]

/-- Effectful map over a list, propagating the first error (the semantics of
a Python `for` loop whose body may raise). -/
def mapE (f : α → Except ε β) : List α → Except ε (List β)
  | [] => .ok []
  | a :: as =>
    match f a with
    | .error e => .error e
    | .ok b =>
      match mapE f as with
      | .error e => .error e
      | .ok bs => .ok (b :: bs)

/-- The body of the `for col, dtype in type_mapping.items()` loop for one
column: look the (already cleaned) name up in the mapping and coerce
accordingly; a name not in the mapping leaves the column untouched. Each
column is matched by at most one mapping key, so iterating over the mapping
and updating `df[col]` is iterating over the columns applying this. -/
def colCoerce (c : Col) : Except String Col :=
  match type_mapping.lookup c.name with
  | none => .ok c
  | some dtype =>
    if dtype = "category" then
      .ok ⟨c.name, .category (categoriesOf c.cells), c.cells⟩
    else if dtype = "int64" then
      match mapE int64Cell c.cells with
      | .error e => .error e
      | .ok cs => .ok ⟨c.name, .int64, cs⟩
    else if dtype = "float64" then
      .ok ⟨c.name, .float64, c.cells.map float64Cell⟩
    else if dtype = "string" then
      .ok ⟨c.name, .stringD, c.cells.map stringCell⟩
    else
      .ok c

/-- Lines 50-60 of `csv_to_parquet.py`: apply the declared types to the
columns that are present. -/
def applyTypes (df : Df) : Except String Df :=
  match mapE colCoerce df.cols with
  | .error e => .error e
  | .ok cs => .ok ⟨cs⟩

/-- Line 33 of `csv_to_parquet.py`: rename every column with
`clean_column_name`. -/
def renameDf (df : Df) : Df :=
  ⟨df.cols.map fun c => ⟨clean_column_name c.name, c.dtype, c.cells⟩⟩

/-! ## CSV reading and the S3 store -/

/-- Split a character list at every occurrence of a separator. -/
def splitOn (sep : Char) : List Char → List (List Char)
  | [] => [[]]
  | c :: cs =>
    let r := splitOn sep cs
    if c = sep then [] :: r
    else
      match r with
      | [] => [[c]]
      | g :: gs => (c :: g) :: gs

/-- The lines of a file: split on newline, ignoring one trailing newline
(the usual final-line convention pandas follows). -/
def fileLines (content : String) : List (List Char) :=
  let ls := splitOn '\n' content.toList
  match ls.getLast? with
  | some [] => ls.dropLast
  | _ => ls

/-- The default NA markers of `pandas.read_csv` that this dataset can
contain (an abridged but faithful subset of the default `na_values`). -/
def naValues : List String :=
  ["", "N/A", "NA", "NaN", "nan", "null", "NULL", "n/a", "<NA>", "None"]

/-- One raw CSV field to a cell: default NA markers become missing. -/
def parseField (s : String) : Cell :=
  if naValues.contains s then .na else .str s

/-- `pandas.read_csv` on raw text: first line is the header, each further
line a row, fields split on commas. A row longer than the header is a
`ParserError`; a shorter row is padded with missing values; an empty file is
an `EmptyDataError`. Cells keep the inferred `object` dtype (values are kept
as the raw strings; numeric dtype inference happens only through the
explicit coercions the converter applies). -/
def parseCsv (content : String) : Except String Df :=
  match fileLines content with
  | [] => .error "EmptyDataError: No columns to parse from file"
  | header :: rows =>
    let names := (splitOn ',' header).map String.mk
    let fields := rows.map (splitOn ',')
    if fields.any fun r => names.length < r.length then
      .error "ParserError: row with too many fields"
    else
      .ok ⟨(List.range names.length).map fun i =>
        ⟨names.getD i "", .object,
         fields.map fun r => parseField (String.mk (r.getD i []))⟩⟩

/-- An S3 object: raw text (as uploaded CSV files are) or a written Parquet
file, modelled by the table it serializes. -/
inductive S3Obj where
  | raw (content : String) : S3Obj
  | parq (df : Df) : S3Obj
deriving DecidableEq, Repr

/-- The object store: association list from full `s3://bucket/key` paths;
a put prepends, and lookup takes the most recent entry. -/
def Store := List (String × S3Obj)

/-- The full S3 path the source builds with f-strings. -/
def s3Path (bucket key : String) : String :=
  "s3://" ++ bucket ++ "/" ++ key

/-- Look an object up by path. -/
def lookupObj (st : Store) (path : String) : Option S3Obj :=
  List.lookup path st

/-- Write (or overwrite) an object. -/
def putObj (st : Store) (path : String) (o : S3Obj) : Store :=
  (path, o) :: st

/-- `wr.s3.read_csv(s3_csv_path)`: fetch the object and parse it as CSV.
A missing object raises `NoFilesFound`; a Parquet object is not delimited
text and fails to parse. -/
def readCsv (st : Store) (bucket csv_key : String) : Except String Df :=
  match lookupObj st (s3Path bucket csv_key) with
  | none => .error ("NoFilesFound: " ++ s3Path bucket csv_key)
  | some (.raw content) => parseCsv content
  | some (.parq _) => .error "ParserError: not delimited text"

/-- The error taxonomy of the conversion: errors raised while reading the
source, and errors raised by the type coercion. -/
inductive ConvErr where
  | readErr (msg : String) : ConvErr
  | coerceErr (msg : String) : ConvErr
deriving DecidableEq, Repr

/-- `convert_csv_to_parquet` from `csv_to_parquet.py`: read the CSV from S3,
clean the column names, apply the declared types, derive the Parquet key by
`csv_key.replace('.csv', '.parquet')`, write the table there and return the
key. The store is returned alongside the outcome: it is unchanged unless the
final write is reached. -/
def convert_csv_to_parquet (st : Store) (bucket csv_key : String) :
    Store × Except ConvErr String :=
  match readCsv st bucket csv_key with
  | .error e => (st, .error (.readErr e))
  | .ok df =>
    match applyTypes (renameDf df) with
    | .error e => (st, .error (.coerceErr e))
    | .ok df2 =>
      let parquet_key := pyReplaceStr csv_key ".csv" ".parquet"
      (putObj st (s3Path bucket parquet_key) (.parq df2), .ok parquet_key)

/-! ## Invocation adapters -/

/-- One record of an S3 event, with the fields `lambda_handler` reads
(`record['s3']['bucket']['name']`, `record['s3']['object']['key']`); a
missing field is `none`. -/
structure S3EventRecord where
  bucket : Option String
  key : Option String
deriving DecidableEq, Repr

/-- One entry of the `results` list built by `lambda_handler`. -/
structure ConvertResult where
  source_file : String
  output_file : String
  bucketName : String
  status : String
deriving DecidableEq, Repr

/-- The body of the handler's response: the success payload or the failure
payload. -/
inductive LambdaBody where
  | success (message : String) (results : List ConvertResult) : LambdaBody
  | failure (error : String) : LambdaBody
deriving DecidableEq, Repr

/-- The handler's response dictionary. -/
structure LambdaResponse where
  statusCode : Nat
  body : LambdaBody
deriving DecidableEq, Repr

/-- The record loop inside the `try` of `lambda_handler`: for each record,
extract bucket and key (raising `ValueError` when either is absent or
empty), URL-decode the key with `unquote_plus` (passed in as `unquote`; it
is a library function the handler merely applies) and convert. An error
anywhere aborts the loop. -/
def processRecords (unquote : String → String)
    (conv : String → String → Except String String) :
    List S3EventRecord → Except String (List ConvertResult)
  | [] => .ok []
  | r :: rs =>
    match r.bucket, r.key with
    | some b, some k =>
      if b = "" || k = "" then
        .error "Missing bucket name or object key in S3 event record"
      else
        match conv b (unquote k) with
        | .error e => .error e
        | .ok pk =>
          match processRecords unquote conv rs with
          | .error e => .error e
          | .ok rest => .ok (⟨unquote k, pk, b, "success"⟩ :: rest)
    | _, _ => .error "Missing bucket name or object key in S3 event record"

/-- `lambda_handler` from `lambda_wrapper.py`: run the record loop; on
success return a 200 response, on any exception catch it and return a 500
response embedding the message. The result type `Except String LambdaResponse`
records whether an exception escapes the handler: it never does, so every
outcome is `.ok`. -/
def lambda_handler (unquote : String → String)
    (conv : String → String → Except String String)
    (records : List S3EventRecord) : Except String LambdaResponse :=
  match processRecords unquote conv records with
  | .ok results =>
    .ok ⟨200, .success ("Successfully processed " ++ toString results.length ++ " files")
           results⟩
  | .error e =>
    .ok ⟨500, .failure ("Failed to process S3 event: " ++ e)⟩

/-- `main` from `glue_wrapper.py`: call the converter with the resolved
arguments; on success finish normally, on an exception log and re-raise it. -/
def glueMain (conv : String → String → Except String String)
    (bucket_name csv_key : String) : Except String Unit :=
  match conv bucket_name csv_key with
  | .ok _ => .ok ()
  | .error e => .error e

/-! ## Batch brightness configuration parsing -/

/-- The dictionary `parse_config_file` returns: the source bucket and the
prefix of the keys to list (field names follow the source). -/
structure BrightnessConfig where
  source_bucket : String
  source_pfx : String
deriving DecidableEq, Repr

/-- Python `str.split(sep, 1)` restricted to what the source uses: split at
the first occurrence of the separator, `none` when it does not occur. -/
def splitFirst (sep : Char) : List Char → Option (List Char × List Char)
  | [] => none
  | c :: cs =>
    if c = sep then some ([], cs)
    else
      match splitFirst sep cs with
      | none => none
      | some (a, b) => some (c :: a, b)

/-- `parse_config_file` from `batch_satellite_brightness.py`, applied to the
decoded content of the config object (the S3 `get_object` fetch is external
I/O abstracted to its result): strip the content, require the `s3://`
scheme (else `ValueError`), drop the scheme and split bucket from prefix at
the first slash, the prefix defaulting to the empty string. -/
def parse_config_file (config_content : String) : Except String BrightnessConfig :=
  let c := pyStrip config_content.toList
  if ("s3://".toList).isPrefixOf c then
    let s3_path := c.drop 5
    match splitFirst '/' s3_path with
    | some (b, p) => .ok ⟨String.mk b, String.mk p⟩
    | none => .ok ⟨String.mk s3_path, ""⟩
  else
    .error ("Config file must contain S3 path starting with s3://. Got: " ++ String.mk c)

/-! ## Helper definitions used by the statements -/

/-- The value of an `Except`, with a default for the error case. -/
def exceptD (dflt : β) : Except ε β → β
  | .ok b => b
  | .error _ => dflt

/-- The value an integer-declared cell takes when the Int64 coercion
succeeds (missing when the cell is missing or unparseable). -/
def int64CellValue (c : Cell) : Cell :=
  exceptD Cell.na (int64Cell c)

/-- Characters that the column-name normalization emits: lowercase ASCII
letters, digits and the underscore. -/
def goodChar (c : Char) : Bool :=
  (97 ≤ c.toNat && c.toNat ≤ 122) || pyIsDigit c || c = '_'

/-! ## Character lemmas for the name normalization -/

/-- `Char.ofNat` round-trips on small codepoints. -/
theorem char_toNat_ofNat (n : Nat) (h : n < 1000) : (Char.ofNat n).toNat = n := by
  have hv : n.isValidChar := Or.inl (by omega)
  simp only [Char.ofNat, hv, dif_pos]
  rfl

/-- Lowercasing fixes the characters the normalization emits. -/
theorem pyToLower_eq_self (c : Char) (h : goodChar c = true) : pyToLower c = c := by
  simp only [goodChar, pyIsDigit, Bool.or_eq_true, Bool.and_eq_true,
    decide_eq_true_eq] at h
  rcases h with (h | h) | h
  · simp only [pyToLower, Char.toLower]
    rw [if_neg (by omega)]
  · simp only [pyToLower, Char.toLower]
    rw [if_neg (by omega)]
  · subst h
    decide

/-- Lowercasing a word character yields a character the normalization may
emit. -/
theorem pyToLower_good (c : Char) (h : pyIsWordChar c = true) :
    goodChar (pyToLower c) = true := by
  simp only [pyIsWordChar, pyIsAlpha, pyIsDigit, Bool.or_eq_true, Bool.and_eq_true,
    decide_eq_true_eq] at h
  rcases h with ((h | h) | h) | h
  · have hlt : c.toNat + 32 < 1000 := by omega
    simp only [pyToLower, Char.toLower]
    rw [if_pos (by omega)]
    simp only [goodChar, Bool.or_eq_true, Bool.and_eq_true, decide_eq_true_eq]
    left; left
    rw [char_toNat_ofNat _ hlt]
    omega
  · simp only [pyToLower, Char.toLower]
    rw [if_neg (by omega)]
    simp only [goodChar, Bool.or_eq_true, Bool.and_eq_true, decide_eq_true_eq]
    left; left
    omega
  · simp only [pyToLower, Char.toLower]
    rw [if_neg (by omega)]
    simp only [goodChar, pyIsDigit, Bool.or_eq_true, Bool.and_eq_true,
      decide_eq_true_eq]
    left; right
    omega
  · subst h
    decide

/-- The characters the normalization emits are not whitespace. -/
theorem good_not_space (c : Char) (h : goodChar c = true) : pyIsSpace c = false := by
  rw [← Bool.not_eq_true]
  intro hs
  simp only [pyIsSpace, Bool.or_eq_true, decide_eq_true_eq] at hs
  rcases hs with ((((rfl | rfl) | rfl) | rfl) | rfl) | rfl <;> exact absurd h (by decide)

/-- The characters the normalization emits are word characters. -/
theorem good_word (c : Char) (h : goodChar c = true) : pyIsWordChar c = true := by
  simp only [goodChar, pyIsDigit, Bool.or_eq_true, Bool.and_eq_true,
    decide_eq_true_eq] at h
  simp only [pyIsWordChar, pyIsAlpha, pyIsDigit, Bool.or_eq_true, Bool.and_eq_true,
    decide_eq_true_eq]
  rcases h with (h | h) | h
  · left; left; right; omega
  · left; right; omega
  · right; exact h

/-! ## List lemmas for the name normalization -/

/-- `dropWhile` is the identity when no element satisfies the predicate. -/
theorem dropWhile_eq_self_of {p : Char → Bool} {l : List Char}
    (h : ∀ c ∈ l, p c = false) : l.dropWhile p = l := by
  cases l with
  | nil => rfl
  | cons a l =>
    rw [List.dropWhile_cons, if_neg (by simp [h a (List.mem_cons_self a l)])]

/-- Stripping is the identity on whitespace-free lists. -/
theorem pyStrip_eq_self {l : List Char} (h : ∀ c ∈ l, pyIsSpace c = false) :
    pyStrip l = l := by
  unfold pyStrip
  rw [dropWhile_eq_self_of h, dropWhile_eq_self_of, List.reverse_reverse]
  intro c hc
  exact h c (List.mem_reverse.mp hc)

/-- Stripping only removes characters. -/
theorem mem_pyStrip {c : Char} {l : List Char} (hc : c ∈ pyStrip l) : c ∈ l := by
  unfold pyStrip at hc
  have h1 := List.mem_reverse.mp hc
  have h2 := (List.dropWhile_sublist (l := (l.dropWhile pyIsSpace).reverse) pyIsSpace).subset h1
  have h3 := List.mem_reverse.mp h2
  exact (List.dropWhile_sublist (l := l) pyIsSpace).subset h3

/-- Every character the collapsing scan emits is an underscore or a
non-whitespace character of the input, whatever the run flag. -/
theorem mem_collapseWsAux {c : Char} {l : List Char} :
    ∀ b, c ∈ collapseWsAux b l → c = '_' ∨ (c ∈ l ∧ pyIsSpace c = false) := by
  induction l with
  | nil => intro b hc; exact absurd hc (by simp [collapseWsAux])
  | cons a rest ih =>
    intro b hc
    by_cases hsp : pyIsSpace a = true
    · rw [collapseWsAux, if_pos hsp] at hc
      cases b with
      | true =>
        rcases ih true hc with h2 | ⟨h2, h3⟩
        · exact Or.inl h2
        · exact Or.inr ⟨List.mem_cons_of_mem _ h2, h3⟩
      | false =>
        rcases List.mem_cons.mp hc with h | h
        · exact Or.inl h
        · rcases ih true h with h2 | ⟨h2, h3⟩
          · exact Or.inl h2
          · exact Or.inr ⟨List.mem_cons_of_mem _ h2, h3⟩
    · rw [collapseWsAux, if_neg hsp] at hc
      rcases List.mem_cons.mp hc with h | h
      · subst h
        exact Or.inr ⟨List.mem_cons_self _ _, by simp [hsp]⟩
      · rcases ih false h with h2 | ⟨h2, h3⟩
        · exact Or.inl h2
        · exact Or.inr ⟨List.mem_cons_of_mem _ h2, h3⟩

/-- Every character of the whitespace-collapsed list is an underscore or a
non-whitespace character of the input. -/
theorem mem_collapseWs {c : Char} {l : List Char} (hc : c ∈ collapseWs l) :
    c = '_' ∨ (c ∈ l ∧ pyIsSpace c = false) :=
  mem_collapseWsAux false hc

/-- The collapsing scan is the identity on whitespace-free lists. -/
theorem collapseWsAux_eq_self {l : List Char} (h : ∀ c ∈ l, pyIsSpace c = false) :
    ∀ b, collapseWsAux b l = l := by
  induction l with
  | nil => intro b; rfl
  | cons a l ih =>
    intro b
    rw [collapseWsAux, if_neg (by simp [h a (List.mem_cons_self a l)])]
    rw [ih fun c hc => h c (List.mem_cons_of_mem _ hc)]

/-- Collapsing whitespace is the identity on whitespace-free lists. -/
theorem collapseWs_eq_self {l : List Char} (h : ∀ c ∈ l, pyIsSpace c = false) :
    collapseWs l = l :=
  collapseWsAux_eq_self h false

/-- Every character of a normalized name is a lowercase letter, a digit or
an underscore. -/
theorem cleanList_good {l : List Char} : ∀ c ∈ cleanList l, goodChar c = true := by
  intro c hc
  simp only [cleanList, List.mem_map] at hc
  obtain ⟨d, hd, rfl⟩ := hc
  rcases mem_collapseWs hd with h | ⟨hmem, hsp⟩
  · subst h
    decide
  · have hf := List.mem_filter.mp (mem_pyStrip hmem)
    have hw : pyIsWordChar d = true := by
      rcases Bool.or_eq_true_iff.mp hf.2 with h | h
      · exact h
      · rw [h] at hsp
        exact absurd hsp (by simp)
    exact pyToLower_good d hw

/-- Normalization is the identity on already-normalized character lists. -/
theorem cleanList_fixed {l : List Char} (h : ∀ c ∈ l, goodChar c = true) :
    cleanList l = l := by
  unfold cleanList
  rw [List.filter_eq_self.mpr fun c hc => by simp [good_word c (h c hc)]]
  rw [pyStrip_eq_self fun c hc => good_not_space c (h c hc)]
  rw [collapseWs_eq_self fun c hc => good_not_space c (h c hc)]
  rw [List.map_congr_left fun c hc => pyToLower_eq_self c (h c hc)]
  simp


/-! ## Lemmas about effectful maps and the coercion loop -/

/-- A successful effectful map is the pointwise map of the success values. -/
theorem mapE_ok_eq_map {f : α → Except ε β} {l : List α} {l2 : List β} (dflt : β)
    (h : mapE f l = .ok l2) : l2 = l.map fun a => exceptD dflt (f a) := by
  induction l generalizing l2 with
  | nil =>
    simp only [mapE] at h
    cases h
    rfl
  | cons a as ih =>
    simp only [mapE] at h
    cases hfa : f a with
    | error e => rw [hfa] at h; exact absurd h (by simp)
    | ok b =>
      rw [hfa] at h
      cases hrest : mapE f as with
      | error e => rw [hrest] at h; exact absurd h (by simp)
      | ok bs =>
        rw [hrest] at h
        simp only [Except.ok.injEq] at h
        subst h
        simp [ih hrest, hfa, exceptD]

/-- Every element of a successfully mapped list was itself mapped
successfully. -/
theorem mapE_ok_forall {f : α → Except ε β} {l : List α} {l2 : List β}
    (h : mapE f l = .ok l2) : ∀ a ∈ l, ∃ b, f a = .ok b := by
  induction l generalizing l2 with
  | nil => intro a ha; exact absurd ha (by simp)
  | cons a as ih =>
    intro x hx
    simp only [mapE] at h
    cases hfa : f a with
    | error e => rw [hfa] at h; exact absurd h (by simp)
    | ok b =>
      rw [hfa] at h
      cases hrest : mapE f as with
      | error e => rw [hrest] at h; exact absurd h (by simp)
      | ok bs =>
        rcases List.mem_cons.mp hx with rfl | hmem
        · exact ⟨b, hfa⟩
        · exact ih hrest x hmem

/-- If every element maps successfully to `g a`, the effectful map succeeds
with the pointwise map. -/
theorem mapE_ok_of_forall {f : α → Except ε β} {g : α → β} {l : List α}
    (h : ∀ a ∈ l, f a = .ok (g a)) : mapE f l = .ok (l.map g) := by
  induction l with
  | nil => rfl
  | cons a as ih =>
    simp only [mapE, h a (List.mem_cons_self a as)]
    rw [ih fun a ha => h a (List.mem_cons_of_mem _ ha)]
    rfl

/-- A successful column coercion keeps the column name. -/
theorem colCoerce_name {c c2 : Col} (h : colCoerce c = .ok c2) : c2.name = c.name := by
  unfold colCoerce at h
  cases hl : type_mapping.lookup c.name with
  | none => rw [hl] at h; cases h; rfl
  | some d =>
    rw [hl] at h
    dsimp only at h
    by_cases h1 : d = "category"
    · rw [if_pos h1] at h; cases h; rfl
    rw [if_neg h1] at h
    by_cases h2 : d = "int64"
    · rw [if_pos h2] at h
      cases hm : mapE int64Cell c.cells with
      | error e => rw [hm] at h; exact absurd h (by simp)
      | ok cs => rw [hm] at h; cases h; rfl
    rw [if_neg h2] at h
    by_cases h3 : d = "float64"
    · rw [if_pos h3] at h; cases h; rfl
    rw [if_neg h3] at h
    by_cases h4 : d = "string"
    · rw [if_pos h4] at h; cases h; rfl
    · rw [if_neg h4] at h; cases h; rfl

/-- A successful column coercion maps the cells pointwise (rows keep their
position; no row is added or dropped). -/
theorem colCoerce_cells {c c2 : Col} (h : colCoerce c = .ok c2) :
    ∃ g : Cell → Cell, c2.cells = c.cells.map g := by
  unfold colCoerce at h
  cases hl : type_mapping.lookup c.name with
  | none => rw [hl] at h; cases h; exact ⟨id, by simp⟩
  | some d =>
    rw [hl] at h
    dsimp only at h
    by_cases h1 : d = "category"
    · rw [if_pos h1] at h; cases h; exact ⟨id, by simp⟩
    rw [if_neg h1] at h
    by_cases h2 : d = "int64"
    · rw [if_pos h2] at h
      cases hm : mapE int64Cell c.cells with
      | error e => rw [hm] at h; exact absurd h (by simp)
      | ok cs =>
        rw [hm] at h
        cases h
        exact ⟨int64CellValue, mapE_ok_eq_map Cell.na hm⟩
    rw [if_neg h2] at h
    by_cases h3 : d = "float64"
    · rw [if_pos h3] at h; cases h; exact ⟨float64Cell, rfl⟩
    rw [if_neg h3] at h
    by_cases h4 : d = "string"
    · rw [if_pos h4] at h; cases h; exact ⟨stringCell, rfl⟩
    · rw [if_neg h4] at h; cases h; exact ⟨id, by simp⟩

/-- A column whose name is not declared is left exactly as it is. -/
theorem colCoerce_undeclared {c : Col} (h : type_mapping.lookup c.name = none) :
    colCoerce c = .ok c := by
  unfold colCoerce
  rw [h]

/-- A successful type application relates the columns pointwise: same number
of columns, and each output column is the successful coercion of the input
column in the same position. -/
theorem applyTypes_cols {df df2 : Df} (h : applyTypes df = .ok df2) :
    df2.cols = df.cols.map fun c => exceptD c (colCoerce c) := by
  unfold applyTypes at h
  cases hm : mapE colCoerce df.cols with
  | error e => rw [hm] at h; exact absurd h (by simp)
  | ok cs =>
    rw [hm] at h
    cases h
    have hmap := mapE_ok_eq_map (Col.mk "" .object []) hm
    rw [hmap]
    apply List.map_congr_left
    intro c hc
    obtain ⟨c2, hcc⟩ := mapE_ok_forall hm c hc
    rw [hcc]
    rfl

/-- A successful type application keeps the column names, in order. -/
theorem applyTypes_names {df df2 : Df} (h : applyTypes df = .ok df2) :
    df2.cols.map Col.name = df.cols.map Col.name := by
  have hex : ∃ cs, mapE colCoerce df.cols = .ok cs := by
    unfold applyTypes at h
    cases hm2 : mapE colCoerce df.cols with
    | error e => rw [hm2] at h; exact absurd h (by simp)
    | ok cs => exact ⟨cs, rfl⟩
  obtain ⟨cs, hm⟩ := hex
  rw [applyTypes_cols h, List.map_map]
  apply List.map_congr_left
  intro c hc
  obtain ⟨c2, hcc⟩ := mapE_ok_forall hm c hc
  simp only [Function.comp_apply, hcc, exceptD]
  exact colCoerce_name hcc

/-- When every column of a table is undeclared, applying the types is the
identity and cannot fail. -/
theorem applyTypes_undeclared {df : Df}
    (h : ∀ c ∈ df.cols, type_mapping.lookup c.name = none) :
    applyTypes df = .ok df := by
  have hmap : mapE colCoerce df.cols = .ok (df.cols.map id) :=
    mapE_ok_of_forall fun c hc => colCoerce_undeclared (h c hc)
  unfold applyTypes
  rw [hmap]
  simp

/-- Looking up a path right after writing it yields the written object. -/
theorem lookupObj_putObj (st : Store) (p : String) (o : S3Obj) :
    lookupObj (putObj st p o) p = some o := by
  simp [lookupObj, putObj, List.lookup]

/-! ## Lemmas about string replacement and splitting -/

/-- The fuelled replacement scan is the identity when the pattern occurs
nowhere, for any amount of fuel. -/
theorem pyReplaceFuel_id_of_no_occ {pat rep : List Char} :
    ∀ (fuel : Nat) (l : List Char), ¬ pat <:+: l → pyReplaceFuel pat rep fuel l = l := by
  intro fuel
  induction fuel with
  | zero => intro l h; cases l <;> rfl
  | succ fuel ih =>
    intro l h
    cases l with
    | nil => rfl
    | cons c cs =>
      have hnp : ¬ (pat ≠ [] ∧ pat.isPrefixOf (c :: cs) = true) := by
        rintro ⟨hne, hpre⟩
        exact h (List.isPrefixOf_iff_prefix.mp hpre).isInfix
      rw [pyReplaceFuel, if_neg hnp, ih cs fun hi => h (List.infix_cons hi)]

/-- `str.replace` is the identity when the pattern occurs nowhere. -/
theorem pyReplace_id_of_no_occ {pat rep l : List Char} (h : ¬ pat <:+: l) :
    pyReplace pat rep l = l :=
  pyReplaceFuel_id_of_no_occ l.length l h

/-- `str.split(sep, 1)` finds no separator in a separator-free list. -/
theorem splitFirst_not_mem {sep : Char} {l : List Char} (h : sep ∉ l) :
    splitFirst sep l = none := by
  induction l with
  | nil => rfl
  | cons c cs ih =>
    rw [splitFirst, if_neg fun hc => h (List.mem_cons.mpr (Or.inl hc.symm))]
    rw [ih fun hc => h (List.mem_cons_of_mem _ hc)]

/-- `str.split(sep, 1)` splits at the first separator. -/
theorem splitFirst_append {sep : Char} {A B : List Char} (h : sep ∉ A) :
    splitFirst sep (A ++ sep :: B) = some (A, B) := by
  induction A with
  | nil => simp [splitFirst]
  | cons c cs ih =>
    rw [List.cons_append, splitFirst,
      if_neg fun hc => h (List.mem_cons.mpr (Or.inl hc.symm))]
    rw [ih fun hc => h (List.mem_cons_of_mem _ hc)]

/-! ## Claim theorems -/

/-- C3: for every header string `H`, normalizing a column name twice yields
the same result as normalizing it once (`clean_column_name` is idempotent). -/
theorem clean_column_name_idempotent (H : String) :
    clean_column_name (clean_column_name H) = clean_column_name H := by
  unfold clean_column_name
  have htl : (String.mk (cleanList H.toList)).toList = cleanList H.toList := rfl
  rw [htl, cleanList_fixed cleanList_good]

/-- C6: when reading the source fails (missing object, not delimited text,
unparseable rows), `convert_csv_to_parquet` fails with a read error and the
store is exactly the one it started with: nothing has been written. -/
theorem convert_read_error (st : Store) (bucket csv_key e : String)
    (h : readCsv st bucket csv_key = .error e) :
    convert_csv_to_parquet st bucket csv_key = (st, .error (.readErr e)) := by
  unfold convert_csv_to_parquet
  rw [h]

/-- C6 witness: converting from an empty store fails with a read error and
leaves the store empty. -/
theorem convert_read_error_witness :
    convert_csv_to_parquet [] "b" "data.csv" =
      ([], .error (.readErr "NoFilesFound: s3://b/data.csv")) :=
  convert_read_error [] "b" "data.csv" "NoFilesFound: s3://b/data.csv" rfl

/-- C9: when the source key contains no occurrence of `".csv"` at all,
the derived key equals the source key itself, and the Parquet output is
written over the source object's own location. -/
theorem convert_key_without_csv (st : Store) (bucket csv_key : String) (df df2 : Df)
    (hread : readCsv st bucket csv_key = .ok df)
    (happ : applyTypes (renameDf df) = .ok df2)
    (hno : ¬ (".csv".toList <:+: csv_key.toList)) :
    convert_csv_to_parquet st bucket csv_key =
      (putObj st (s3Path bucket csv_key) (.parq df2), .ok csv_key) ∧
    lookupObj (convert_csv_to_parquet st bucket csv_key).1 (s3Path bucket csv_key) =
      some (.parq df2) := by
  have hkey : pyReplaceStr csv_key ".csv" ".parquet" = csv_key := by
    unfold pyReplaceStr
    rw [pyReplace_id_of_no_occ hno]
    rfl
  have hconv : convert_csv_to_parquet st bucket csv_key =
      (putObj st (s3Path bucket csv_key) (.parq df2), .ok csv_key) := by
    unfold convert_csv_to_parquet
    rw [hread]
    dsimp only
    rw [happ]
    dsimp only
    rw [hkey]
  exact ⟨hconv, by rw [hconv]; exact lookupObj_putObj st _ _⟩

/-- C9 witness: a key with no `".csv"` substring maps to itself and the
Parquet table lands at the source's own path. -/
theorem convert_key_without_csv_witness :
    convert_csv_to_parquet [(s3Path "b" "file.txt", S3Obj.raw "a\n1")] "b" "file.txt" =
      (putObj [(s3Path "b" "file.txt", S3Obj.raw "a\n1")] (s3Path "b" "file.txt")
        (.parq ⟨[⟨"a", .object, [.str "1"]⟩]⟩), .ok "file.txt") :=
  (convert_key_without_csv [(s3Path "b" "file.txt", S3Obj.raw "a\n1")] "b" "file.txt"
    ⟨[⟨"a", .object, [.str "1"]⟩]⟩ ⟨[⟨"a", .object, [.str "1"]⟩]⟩
    rfl rfl (by decide)).1

/-- The column at position `i` after a successful type application is the
coercion result of the input column at position `i`. -/
theorem applyTypes_get {df df2 : Df} (happ : applyTypes df = .ok df2) (i : Nat)
    (hi : i < df.cols.length) (hi2 : i < df2.cols.length) :
    df2.cols.get ⟨i, hi2⟩ =
      exceptD (df.cols.get ⟨i, hi⟩) (colCoerce (df.cols.get ⟨i, hi⟩)) := by
  have hcols := applyTypes_cols happ
  have h1 := List.get_of_eq hcols ⟨i, hi2⟩
  rw [h1, List.get_map]

/-- After a successful type application, coercing the input column at `i`
succeeds with the output column at `i`. -/
theorem applyTypes_get_ok {df df2 : Df} (happ : applyTypes df = .ok df2) (i : Nat)
    (hi : i < df.cols.length) (hi2 : i < df2.cols.length) :
    colCoerce (df.cols.get ⟨i, hi⟩) = .ok (df2.cols.get ⟨i, hi2⟩) := by
  have hex : ∃ cs, mapE colCoerce df.cols = .ok cs := by
    unfold applyTypes at happ
    cases hm2 : mapE colCoerce df.cols with
    | error e => rw [hm2] at happ; exact absurd happ (by simp)
    | ok cs => exact ⟨cs, rfl⟩
  obtain ⟨cs, hm⟩ := hex
  obtain ⟨c2, hcc⟩ := mapE_ok_forall hm (df.cols.get ⟨i, hi⟩) (List.get_mem _ _ _)
  rw [applyTypes_get happ i hi hi2, hcc]
  rfl

/-- C1 counterexample: for the source key `"data/file.csv.csv"`, which ends
in `".csv"`, the converter does not change only the final suffix: Python's
`str.replace` replaces every occurrence, yielding
`"data/file.parquet.parquet"` instead of `"data/file.csv.parquet"`. -/
theorem convert_derived_key_counterexample :
    (convert_csv_to_parquet [(s3Path "b" "data/file.csv.csv", S3Obj.raw "a\n1")]
        "b" "data/file.csv.csv").2 = .ok "data/file.parquet.parquet" ∧
    ("data/file.parquet.parquet" : String) ≠ "data/file.csv.parquet" := by
  exact ⟨rfl, by decide⟩

/-- C1 (amended): for every source key, `convert_csv_to_parquet` returns the
key with every occurrence of `".csv"` replaced by `".parquet"` (for keys
whose only occurrence of `".csv"` is the final extension, such as
`"data/file.csv"`, this changes exactly that extension), and writes the
transformed table at that derived location. -/
theorem convert_derived_key (st : Store) (bucket csv_key : String) (df df2 : Df)
    (hread : readCsv st bucket csv_key = .ok df)
    (happ : applyTypes (renameDf df) = .ok df2) :
    convert_csv_to_parquet st bucket csv_key =
      (putObj st (s3Path bucket (pyReplaceStr csv_key ".csv" ".parquet")) (.parq df2),
       .ok (pyReplaceStr csv_key ".csv" ".parquet")) ∧
    lookupObj (convert_csv_to_parquet st bucket csv_key).1
        (s3Path bucket (pyReplaceStr csv_key ".csv" ".parquet")) = some (.parq df2) := by
  have hconv : convert_csv_to_parquet st bucket csv_key =
      (putObj st (s3Path bucket (pyReplaceStr csv_key ".csv" ".parquet")) (.parq df2),
       .ok (pyReplaceStr csv_key ".csv" ".parquet")) := by
    unfold convert_csv_to_parquet
    rw [hread]
    dsimp only
    rw [happ]
  exact ⟨hconv, by rw [hconv]; exact lookupObj_putObj st _ _⟩

/-- C1 witness: `"data/file.csv"` derives `"data/file.parquet"`. -/
theorem convert_derived_key_witness :
    (convert_csv_to_parquet [(s3Path "b" "data/file.csv", S3Obj.raw "a\n1")]
        "b" "data/file.csv").2 = .ok "data/file.parquet" := by
  have h := (convert_derived_key [(s3Path "b" "data/file.csv", S3Obj.raw "a\n1")]
    "b" "data/file.csv" ⟨[⟨"a", .object, [.str "1"]⟩]⟩ ⟨[⟨"a", .object, [.str "1"]⟩]⟩
    rfl rfl).1
  rw [h]
  rfl

/-- C2 counterexample: the cell `"1.5"` in the declared-integer column
`patient_age` is not parseable as an integer, yet the coercion raises
(`to_numeric` parses it as the float 1.5 and the safe cast to the nullable
Int64 dtype fails) instead of turning it into a missing value. -/
theorem int64_coercion_counterexample :
    applyTypes ⟨[⟨"patient_age", .object, [.str "1.5"]⟩]⟩ =
      .error "cannot safely cast non-equivalent float64 to int64" ∧
    parseDecNum "1.5" = some ⟨false, ['1'], ['5']⟩ := ⟨rfl, rfl⟩

/-- C2 (amended): on a read column (missing or string cells) in which no
cell parses as a non-integral number, the Int64 coercion never raises: every
cell that is not parseable as a number becomes a missing value, and parseable
integral cells become integers. -/
theorem int64_coercion_total (cells : List Cell)
    (H0 : ∀ c ∈ cells, c = Cell.na ∨ ∃ s, c = Cell.str s)
    (H1 : ∀ s d, Cell.str s ∈ cells → parseDecNum s = some d → d.isIntegral = true) :
    mapE int64Cell cells = .ok (cells.map int64CellValue) ∧
    ∀ s, parseDecNum s = none → int64CellValue (Cell.str s) = Cell.na := by
  constructor
  · apply mapE_ok_of_forall
    intro c hc
    rcases H0 c hc with rfl | ⟨s, rfl⟩
    · rfl
    · cases hp : parseDecNum s with
      | none => simp [int64Cell, int64CellValue, exceptD, hp]
      | some d =>
        have hint := H1 s d hc hp
        simp [int64Cell, int64CellValue, exceptD, hp, hint]
  · intro s hp
    simp [int64CellValue, int64Cell, exceptD, hp]

/-- C2 witness: the column `["50", NA, "N/A"]` coerces without raising, with
the unparseable `"N/A"` and the missing cell both missing in the output. -/
theorem int64_coercion_total_witness :
    mapE int64Cell [Cell.str "50", Cell.na, Cell.str "N/A"] =
      .ok [Cell.int 50, Cell.na, Cell.na] := by
  have h := int64_coercion_total [Cell.str "50", Cell.na, Cell.str "N/A"] ?H0 ?H1
  case H0 =>
    intro c hc
    simp only [List.mem_cons, List.not_mem_nil, or_false] at hc
    rcases hc with rfl | rfl | rfl
    · exact Or.inr ⟨"50", rfl⟩
    · exact Or.inl rfl
    · exact Or.inr ⟨"N/A", rfl⟩
  case H1 =>
    intro s d hs hp
    simp only [List.mem_cons, List.not_mem_nil, or_false, Cell.str.injEq,
      reduceCtorEq] at hs
    rcases hs with rfl | hs2
    · rw [show parseDecNum "50" = some ⟨false, ['5', '0'], []⟩ from rfl] at hp
      cases hp
      rfl
    · rcases hs2 with h2 | rfl
      · exact h2.elim
      · rw [show parseDecNum "N/A" = none from rfl] at hp
        cases hp
  exact h.1.trans rfl

/-- C4: for every column declared categorical and present, after coercion
the column keeps its name and values and records as categories exactly the
distinct non-missing values: a string is a category exactly when it occurs
in the input column. -/
theorem categorical_categories (df df2 : Df) (i : Nat)
    (hi : i < df.cols.length) (hi2 : i < df2.cols.length)
    (happ : applyTypes df = .ok df2)
    (hcat : type_mapping.lookup (df.cols.get ⟨i, hi⟩).name = some "category") :
    df2.cols.get ⟨i, hi2⟩ =
      ⟨(df.cols.get ⟨i, hi⟩).name,
       .category (categoriesOf (df.cols.get ⟨i, hi⟩).cells),
       (df.cols.get ⟨i, hi⟩).cells⟩ ∧
    ∀ s : String,
      Cell.str s ∈ categoriesOf (df.cols.get ⟨i, hi⟩).cells ↔
        Cell.str s ∈ (df.cols.get ⟨i, hi⟩).cells := by
  constructor
  · rw [applyTypes_get happ i hi hi2]
    unfold colCoerce
    rw [hcat]
    dsimp only
    rw [if_pos rfl]
    rfl
  · intro s
    unfold categoriesOf
    constructor
    · intro hmem
      exact (List.mem_filter.mp (List.mem_dedup.mp hmem)).1
    · intro hmem
      exact List.mem_dedup.mpr (List.mem_filter.mpr ⟨hmem, by simp⟩)

/-- C4 witness: the `view_position` column with values `PA, AP, PA` is
coerced to a categorical column with categories `{PA, AP}` and unchanged
values. -/
theorem categorical_categories_witness :
    (Df.mk [⟨"view_position", .category [Cell.str "AP", Cell.str "PA"],
        [Cell.str "PA", Cell.str "AP", Cell.str "PA"]⟩]).cols.get ⟨0, by decide⟩ =
      ⟨"view_position",
       .category (categoriesOf [Cell.str "PA", Cell.str "AP", Cell.str "PA"]),
       [Cell.str "PA", Cell.str "AP", Cell.str "PA"]⟩ :=
  (categorical_categories
    (Df.mk [⟨"view_position", .object, [Cell.str "PA", Cell.str "AP", Cell.str "PA"]⟩])
    (Df.mk [⟨"view_position", .category [Cell.str "AP", Cell.str "PA"],
      [Cell.str "PA", Cell.str "AP", Cell.str "PA"]⟩])
    0 (by decide) (by decide) rfl rfl).1

/-- C7: the coercion loop touches exactly the declared columns that are
present: a table none of whose columns is declared passes through unchanged
without failing (in particular, absent declared columns are skipped and not
added), and on any successful application the column names are unchanged
and every undeclared column keeps its dtype and values exactly. -/
theorem coerce_frame_effect (df : Df) :
    ((∀ c ∈ df.cols, type_mapping.lookup c.name = none) → applyTypes df = .ok df) ∧
    (∀ df2, applyTypes df = .ok df2 →
      df2.cols.map Col.name = df.cols.map Col.name ∧
      ∀ i (hi : i < df.cols.length) (hi2 : i < df2.cols.length),
        type_mapping.lookup (df.cols.get ⟨i, hi⟩).name = none →
        df2.cols.get ⟨i, hi2⟩ = df.cols.get ⟨i, hi⟩) := by
  constructor
  · exact applyTypes_undeclared
  · intro df2 happ
    refine ⟨applyTypes_names happ, ?_⟩
    intro i hi hi2 hnone
    rw [applyTypes_get happ i hi hi2, colCoerce_undeclared hnone]
    rfl

/-- C7 witness: a single undeclared column passes through unchanged. -/
theorem coerce_frame_effect_witness :
    applyTypes ⟨[⟨"foo", .object, [Cell.str "x"]⟩]⟩ =
      .ok ⟨[⟨"foo", .object, [Cell.str "x"]⟩]⟩ := by
  apply (coerce_frame_effect ⟨[⟨"foo", .object, [Cell.str "x"]⟩]⟩).1
  intro c hc
  simp only [List.mem_singleton] at hc
  subst hc
  rfl

/-- C8: on a successful conversion, the output location holds the coerced
table, whose columns are the source columns in insertion order (renamed by
the normalization) and whose rows are the source rows in order: each output
column has exactly the cells of the input column in the same position,
mapped elementwise. -/
theorem convert_preserves_order (st : Store) (bucket csv_key : String) (df df2 : Df)
    (hread : readCsv st bucket csv_key = .ok df)
    (happ : applyTypes (renameDf df) = .ok df2) :
    (convert_csv_to_parquet st bucket csv_key).2 =
      .ok (pyReplaceStr csv_key ".csv" ".parquet") ∧
    lookupObj (convert_csv_to_parquet st bucket csv_key).1
        (s3Path bucket (pyReplaceStr csv_key ".csv" ".parquet")) = some (.parq df2) ∧
    df2.cols.map Col.name = df.cols.map (fun c => clean_column_name c.name) ∧
    df2.cols.length = df.cols.length ∧
    ∀ i (hi : i < df.cols.length) (hi2 : i < df2.cols.length),
      ∃ g : Cell → Cell,
        (df2.cols.get ⟨i, hi2⟩).cells = (df.cols.get ⟨i, hi⟩).cells.map g := by
  have hconv : convert_csv_to_parquet st bucket csv_key =
      (putObj st (s3Path bucket (pyReplaceStr csv_key ".csv" ".parquet")) (.parq df2),
       .ok (pyReplaceStr csv_key ".csv" ".parquet")) := by
    unfold convert_csv_to_parquet
    rw [hread]
    dsimp only
    rw [happ]
  have hnames := applyTypes_names happ
  refine ⟨by rw [hconv], by rw [hconv]; exact lookupObj_putObj st _ _, ?_, ?_, ?_⟩
  · rw [hnames]
    unfold renameDf
    rw [List.map_map]
    rfl
  · have hlen := congrArg List.length hnames
    simpa [renameDf] using hlen
  · intro i hi hi2
    have hiR : i < (renameDf df).cols.length := by simpa [renameDf] using hi
    have hcc := applyTypes_get_ok happ i hiR hi2
    obtain ⟨g, hg⟩ := colCoerce_cells hcc
    refine ⟨g, ?_⟩
    rw [hg]
    unfold renameDf
    rw [List.get_map]

/-- C8 witness: end-to-end scenario 1 of the spec, on the store holding
`Patient ID,Patient Age,View Position` with rows `1,50,PA` and `2,N/A,AP`. -/
theorem convert_preserves_order_witness :
    (convert_csv_to_parquet
        [(s3Path "b" "data/file.csv",
          S3Obj.raw "Patient ID,Patient Age,View Position\n1,50,PA\n2,N/A,AP")]
        "b" "data/file.csv").2 = .ok "data/file.parquet" := by
  have h := convert_preserves_order
    [(s3Path "b" "data/file.csv",
      S3Obj.raw "Patient ID,Patient Age,View Position\n1,50,PA\n2,N/A,AP")]
    "b" "data/file.csv"
    ⟨[⟨"Patient ID", .object, [Cell.str "1", Cell.str "2"]⟩,
      ⟨"Patient Age", .object, [Cell.str "50", Cell.na]⟩,
      ⟨"View Position", .object, [Cell.str "PA", Cell.str "AP"]⟩]⟩
    ⟨[⟨"patient_id", .int64, [Cell.int 1, Cell.int 2]⟩,
      ⟨"patient_age", .int64, [Cell.int 50, Cell.na]⟩,
      ⟨"view_position", .category [Cell.str "PA", Cell.str "AP"],
        [Cell.str "PA", Cell.str "AP"]⟩]⟩
    rfl rfl
  rw [h.1]
  rfl

/-- C5 counterexample: when the converter raises, the event-driven adapter
(`lambda_handler`) does not re-signal the exception: it catches it and
returns a structured 500 failure payload, so no exception reaches the top
level of the handler. -/
theorem lambda_resignal_counterexample :
    lambda_handler id (fun _ _ => .error "boom") [⟨some "b", some "k.csv"⟩] =
      .ok ⟨500, .failure "Failed to process S3 event: boom"⟩ ∧
    ¬ ∃ e, lambda_handler id (fun _ _ => .error "boom") [⟨some "b", some "k.csv"⟩] =
      .error e := by
  refine ⟨rfl, ?_⟩
  rintro ⟨e, he⟩
  rw [show lambda_handler id (fun _ _ => .error "boom") [⟨some "b", some "k.csv"⟩] =
      Except.ok ⟨500, .failure "Failed to process S3 event: boom"⟩ from rfl] at he
  cases he

/-- C5 (amended): every adapter catches the converter's exception; the
event-driven Lambda adapter logs it and returns a structured failure payload
(statusCode 500) instead of re-signalling, while the batch Glue adapter logs
and re-raises it. -/
theorem adapter_error_handling :
    (∀ (unquote : String → String) (conv : String → String → Except String String)
       (records : List S3EventRecord) (e : String),
       processRecords unquote conv records = .error e →
       lambda_handler unquote conv records =
         .ok ⟨500, .failure ("Failed to process S3 event: " ++ e)⟩) ∧
    (∀ (conv : String → String → Except String String) (b k e : String),
       conv b k = .error e → glueMain conv b k = .error e) := by
  constructor
  · intro unquote conv records e h
    unfold lambda_handler
    rw [h]
  · intro conv b k e h
    unfold glueMain
    rw [h]

/-- C5 witness: a failing conversion yields the 500 payload from the Lambda
adapter and the re-raised exception from the Glue adapter. -/
theorem adapter_error_handling_witness :
    lambda_handler id (fun _ _ => .error "x") [⟨some "b", some "k"⟩] =
      .ok ⟨500, .failure "Failed to process S3 event: x"⟩ ∧
    glueMain (fun _ _ => .error "x") "b" "k" = .error "x" :=
  ⟨adapter_error_handling.1 id (fun _ _ => .error "x") [⟨some "b", some "k"⟩] "x" rfl,
   adapter_error_handling.2 (fun _ _ => .error "x") "b" "k" "x" rfl⟩

/-- C10 counterexample: the content `" s3://b/p"` (leading space) does not
start with `"s3://"`, yet `parse_config_file` does not raise: the code
strips the content before the scheme check and parses it successfully. -/
theorem parse_config_counterexample :
    parse_config_file " s3://b/p" = .ok ⟨"b", "p"⟩ ∧
    ¬ ("s3://".toList <+: (" s3://b/p").toList) := ⟨rfl, by decide⟩

/-- C10 (amended): on the whitespace-stripped content, `parse_config_file`
splits `s3://B/P` (no slash in `B`) into bucket `B` and prefix `P`, maps
`s3://B` to bucket `B` with empty prefix, and raises a `ValueError` whenever
the stripped content does not start with `s3://`. -/
theorem parse_config_cases (content : String) (B P : List Char) :
    ('/' ∉ B →
      pyStrip content.toList = "s3://".toList ++ B ++ '/' :: P →
      parse_config_file content = .ok ⟨String.mk B, String.mk P⟩) ∧
    ('/' ∉ B →
      pyStrip content.toList = "s3://".toList ++ B →
      parse_config_file content = .ok ⟨String.mk B, ""⟩) ∧
    (("s3://".toList).isPrefixOf (pyStrip content.toList) = false →
      parse_config_file content =
        .error ("Config file must contain S3 path starting with s3://. Got: " ++
          String.mk (pyStrip content.toList))) := by
  refine ⟨?_, ?_, ?_⟩
  · intro hB hstrip
    unfold parse_config_file
    rw [hstrip]
    have hpre : ("s3://".toList).isPrefixOf ("s3://".toList ++ B ++ '/' :: P) = true := by
      apply List.isPrefixOf_iff_prefix.mpr
      rw [List.append_assoc]
      exact List.prefix_append _ _
    rw [if_pos hpre]
    have hdrop : ("s3://".toList ++ B ++ '/' :: P).drop 5 = B ++ '/' :: P := by
      rw [List.append_assoc]
      exact List.drop_left "s3://".toList (B ++ '/' :: P)
    dsimp only
    rw [hdrop, splitFirst_append hB]
  · intro hB hstrip
    unfold parse_config_file
    rw [hstrip]
    have hpre : ("s3://".toList).isPrefixOf ("s3://".toList ++ B) = true :=
      List.isPrefixOf_iff_prefix.mpr (List.prefix_append _ _)
    rw [if_pos hpre]
    have hdrop : ("s3://".toList ++ B).drop 5 = B :=
      List.drop_left "s3://".toList B
    dsimp only
    rw [hdrop, splitFirst_not_mem hB]
  · intro hno
    unfold parse_config_file
    have hng : ¬ (("s3://".toList).isPrefixOf (pyStrip content.toList) = true) := by
      rw [hno]
      simp
    rw [if_neg hng]

/-- C10 witness: `"s3://bkt/a/b"` parses into bucket `bkt` and prefix `a/b`. -/
theorem parse_config_cases_witness :
    parse_config_file "s3://bkt/a/b" = .ok ⟨"bkt", "a/b"⟩ :=
  (parse_config_cases "s3://bkt/a/b" "bkt".toList "a/b".toList).1 (by decide) rfl
